import Mathlib

/-!
Verification development for the overscroll-preview gesture controller of
the ai-rss reading client (`src/composables/useOverscrollPreview.ts`).

Modelling conventions of this shallow embedding:

* JavaScript numbers are modelled as real numbers `ℝ`.
* The controller's reactive refs (`state`, `direction`, `overscrollOffset`,
  `isAnimating`, `isCommitting`) together with the non-reactive touch
  tracking variables (`startY`, `overscrollStartY`, `wasAtTop`,
  `wasAtBottom`, `directionLocked`) form one explicit state record
  `ControllerState`.
* External inputs read by the handlers (the `disabled` flag, the scroll
  container metrics behind `scrollContainerRef`, `currentIndex`,
  `articles.length`) form an environment record `Env` passed to each
  handler; an absent container reference is `none`.
* Each `setTimeout` call is modelled by appending a `TimerTask` to a
  pending queue carried in the state; the 300ms/400ms delays themselves
  are abstracted away and `fireTimer` models the event loop later running
  the oldest pending callback.  The source never stores or clears a timer
  handle, so `resetState` — faithfully to the source — leaves the pending
  queue untouched.
* The `onNavigate` callback is modelled as the optional `ℤ` output of
  `fireTimer` (`some i` means the callback was invoked with index `i`).
* A JavaScript `TypeError` raised by evaluating `e.touches[0].clientY` on
  an empty touch list is modelled by the `Option JsError` component of a
  handler's result; mutations performed before the throw persist, exactly
  as mutations of the refs would in JavaScript.
* The `watch(currentIndex, resetState)` hook is modelled by
  `onIndexChange`.
-/

inductive OverscrollState
  | idle
  | scrolling
  | overscrolling
  deriving DecidableEq

inductive Direction
  | prev
  | next
  deriving DecidableEq

/-- A pending `setTimeout` callback scheduled by `onTouchEnd`: the commit
callback captures the navigation target index at scheduling time. -/
inductive TimerTask
  | commit (navigateIndex : ℤ)
  | spring
  deriving DecidableEq

inductive JsError
  | typeError
  deriving DecidableEq

/-- Metrics of the scroll container element read by `isAtTop`/`isAtBottom`. -/
structure ScrollMetrics where
  scrollTop : ℝ
  clientHeight : ℝ
  scrollHeight : ℝ

/-- The `threshold` and `maxOverscroll` options (defaults 120 and 250). -/
structure Config where
  threshold : ℝ
  maxOverscroll : ℝ

/-- External inputs read by the handlers. -/
structure Env where
  disabled : Bool
  container : Option ScrollMetrics
  currentIndex : ℤ
  articlesLen : ℕ

/-- The controller's mutable state: the five reactive refs, the five
internal touch-tracking variables, and the queue of pending timers. -/
structure ControllerState where
  state : OverscrollState
  direction : Option Direction
  overscrollOffset : ℝ
  isAnimating : Bool
  isCommitting : Bool
  startY : ℝ
  overscrollStartY : ℝ
  wasAtTop : Bool
  wasAtBottom : Bool
  directionLocked : Bool
  pendingTimers : List TimerTask

/-- Damping function (rubber-band effect), from the source:
`if (raw <= 0) return 0; return maxOverscroll * (1 - Math.exp(-raw / (maxOverscroll * 0.6)))`. -/
noncomputable def dampen (maxOverscroll : ℝ) (raw : ℝ) : ℝ :=
  if raw ≤ 0 then 0 else maxOverscroll * (1 - Real.exp (-raw / (maxOverscroll * 0.6)))

/-- `isAtTop`: `true` when the container reference is absent, else
`el.scrollTop <= 1`. -/
noncomputable def isAtTop (env : Env) : Bool :=
  match env.container with
  | none => true
  | some el => decide (el.scrollTop ≤ 1)

/-- `isAtBottom`: `true` when the container reference is absent, else
`el.scrollTop + el.clientHeight >= el.scrollHeight - 1`. -/
noncomputable def isAtBottom (env : Env) : Bool :=
  match env.container with
  | none => true
  | some el => decide (el.scrollTop + el.clientHeight ≥ el.scrollHeight - 1)

/-- `hasPrev`: `currentIndex.value > 0`. -/
def hasPrev (env : Env) : Prop := env.currentIndex > 0

instance (env : Env) : Decidable (hasPrev env) :=
  inferInstanceAs (Decidable (env.currentIndex > 0))

/-- `hasNext`: `currentIndex.value < articles.value.length - 1`. -/
def hasNext (env : Env) : Prop := env.currentIndex < (env.articlesLen : ℤ) - 1

instance (env : Env) : Decidable (hasNext env) :=
  inferInstanceAs (Decidable (env.currentIndex < (env.articlesLen : ℤ) - 1))

/-- `resetState`: clears the five refs and the direction lock.  The source
function does not touch any timer handle, so the pending queue survives. -/
def resetState (s : ControllerState) : ControllerState :=
  { s with
    state := OverscrollState.idle,
    direction := none,
    overscrollOffset := 0,
    isAnimating := false,
    isCommitting := false,
    directionLocked := false }

/-- `onTouchStart`: cancels an in-flight animation, then reads
`e.touches[0].clientY` (a `TypeError` on an empty list, after the cancel
already happened), records the start Y and the boundary snapshots, and
clears state/direction/lock for the new gesture. -/
noncomputable def onTouchStart (env : Env) (touches : List ℝ) (s : ControllerState) :
    ControllerState × Option JsError :=
  if env.disabled = true then (s, none) else
  let s1 := if s.isAnimating = true ∨ s.isCommitting = true then resetState s else s
  match touches with
  | [] => (s1, some JsError.typeError)
  | y :: _ =>
    ({ s1 with
        startY := y,
        wasAtTop := isAtTop env,
        wasAtBottom := isAtBottom env,
        state := OverscrollState.idle,
        direction := none,
        directionLocked := false }, none)

/-- `onTouchMove`: branches on the current state exactly as the source's
`if/else if` chain does; reads `e.touches[0].clientY` first (a `TypeError`
on an empty list, before any mutation).  `e.preventDefault()` has no
controller-state effect and is not modelled. -/
noncomputable def onTouchMove (cfg : Config) (env : Env) (touches : List ℝ)
    (s : ControllerState) : ControllerState × Option JsError :=
  if env.disabled = true then (s, none) else
  match touches with
  | [] => (s, some JsError.typeError)
  | currentY :: _ =>
    let totalDeltaY := currentY - s.startY
    if s.state = OverscrollState.idle then
      if |totalDeltaY| < 10 then (s, none)
      else if totalDeltaY > 0 ∧ s.wasAtTop = true ∧ hasPrev env then
        ({ s with
            state := OverscrollState.overscrolling,
            direction := some Direction.prev,
            overscrollStartY := currentY,
            directionLocked := true }, none)
      else if totalDeltaY < 0 ∧ s.wasAtBottom = true ∧ hasNext env then
        ({ s with
            state := OverscrollState.overscrolling,
            direction := some Direction.next,
            overscrollStartY := currentY,
            directionLocked := true }, none)
      else ({ s with state := OverscrollState.scrolling }, none)
    else if s.state = OverscrollState.scrolling then
      if totalDeltaY > 0 ∧ isAtTop env = true ∧ hasPrev env ∧ s.directionLocked = false then
        ({ s with
            state := OverscrollState.overscrolling,
            direction := some Direction.prev,
            overscrollStartY := currentY,
            directionLocked := true }, none)
      else if totalDeltaY < 0 ∧ isAtBottom env = true ∧ hasNext env ∧ s.directionLocked = false then
        ({ s with
            state := OverscrollState.overscrolling,
            direction := some Direction.next,
            overscrollStartY := currentY,
            directionLocked := true }, none)
      else (s, none)
    else if s.state = OverscrollState.overscrolling then
      let rawDistance :=
        if s.direction = some Direction.prev then currentY - s.overscrollStartY
        else s.overscrollStartY - currentY
      if rawDistance ≤ 0 then
        ({ s with
            overscrollOffset := 0,
            state := OverscrollState.scrolling,
            direction := none }, none)
      else ({ s with overscrollOffset := dampen cfg.maxOverscroll rawDistance }, none)
    else (s, none)

/-- `onTouchEnd`: on release while overscrolling with a direction, either
commits (offset `>= threshold`: sets both animation flags, snaps the offset
to `maxOverscroll + 50`, captures the navigation target from the current
index, and schedules the 300ms commit timer) or springs back (sets
`isAnimating`, snaps the offset to 0, schedules the 400ms timer);
otherwise resets. -/
noncomputable def onTouchEnd (cfg : Config) (env : Env) (s : ControllerState) :
    ControllerState :=
  if env.disabled = true then s else
  if s.state = OverscrollState.overscrolling ∧ s.direction ≠ none then
    if s.overscrollOffset ≥ cfg.threshold then
      { s with
          isCommitting := true,
          isAnimating := true,
          overscrollOffset := cfg.maxOverscroll + 50,
          pendingTimers := s.pendingTimers ++
            [TimerTask.commit
              (if s.direction = some Direction.prev then env.currentIndex - 1
               else env.currentIndex + 1)] }
    else
      { s with
          isAnimating := true,
          overscrollOffset := 0,
          pendingTimers := s.pendingTimers ++ [TimerTask.spring] }
  else resetState s

/-- Body of a scheduled timer callback: the commit callback invokes
`onNavigate` with the captured index and resets; the spring-back callback
only resets. -/
def runTimerTask (t : TimerTask) (s : ControllerState) : ControllerState × Option ℤ :=
  match t with
  | TimerTask.commit i => (resetState s, some i)
  | TimerTask.spring => (resetState s, none)

/-- The event loop running the oldest pending timer callback (a no-op when
none is pending).  The second component is the `onNavigate` invocation, if
any. -/
def fireTimer (s : ControllerState) : ControllerState × Option ℤ :=
  match s.pendingTimers with
  | [] => (s, none)
  | t :: rest => runTimerTask t { s with pendingTimers := rest }

/-- The `watch(() => currentIndex.value, () => resetState())` hook: an
external index change force-resets the controller. -/
def onIndexChange (s : ControllerState) : ControllerState := resetState s

/-- One touch-move event together with the environment in effect when it
is processed (scroll position may change between moves). -/
structure MoveEvent where
  env : Env
  touches : List ℝ

/-- Process a sequence of touch-move events. -/
noncomputable def applyMoves (cfg : Config) (evts : List MoveEvent)
    (s : ControllerState) : ControllerState :=
  evts.foldl (fun acc e => (onTouchMove cfg e.env e.touches acc).1) s

/-- The default configuration: `threshold = 120`, `maxOverscroll = 250`. -/
def dfltCfg : Config := { threshold := 120, maxOverscroll := 250 }

/-- A mid-list environment: index 2 of 5 articles, no container reference,
not disabled. -/
def envA : Env := { disabled := false, container := none, currentIndex := 2, articlesLen := 5 }

/-- A boundary environment with no adjacent article in either direction:
index 0 of a single article. -/
def env0 : Env := { disabled := false, container := none, currentIndex := 0, articlesLen := 1 }

/-- A released overscroll state past the threshold: overscrolling toward
`prev` with damped offset 150. -/
def sOver : ControllerState :=
  { state := OverscrollState.overscrolling,
    direction := some Direction.prev,
    overscrollOffset := 150,
    isAnimating := false,
    isCommitting := false,
    startY := 0,
    overscrollStartY := 0,
    wasAtTop := true,
    wasAtBottom := false,
    directionLocked := true,
    pendingTimers := [] }

/-- A released overscroll state with damped offset exactly at the default
threshold 120. -/
def sOverEq : ControllerState :=
  { state := OverscrollState.overscrolling,
    direction := some Direction.prev,
    overscrollOffset := 120,
    isAnimating := false,
    isCommitting := false,
    startY := 0,
    overscrollStartY := 0,
    wasAtTop := true,
    wasAtBottom := false,
    directionLocked := true,
    pendingTimers := [] }

/-- A fresh idle state just after a touch-start at `y = 0` that found the
container at its top boundary. -/
def sIdle : ControllerState :=
  { state := OverscrollState.idle,
    direction := none,
    overscrollOffset := 0,
    isAnimating := false,
    isCommitting := false,
    startY := 0,
    overscrollStartY := 0,
    wasAtTop := true,
    wasAtBottom := false,
    directionLocked := false,
    pendingTimers := [] }

/-- A state with a spring-back animation in flight. -/
def sAnim : ControllerState :=
  { state := OverscrollState.overscrolling,
    direction := some Direction.prev,
    overscrollOffset := 80,
    isAnimating := true,
    isCommitting := false,
    startY := 0,
    overscrollStartY := 0,
    wasAtTop := true,
    wasAtBottom := false,
    directionLocked := true,
    pendingTimers := [] }

/-- Concrete scroll metrics: scrolled half a pixel from the top of a
2000px-tall document in a 600px viewport. -/
def elW : ScrollMetrics := { scrollTop := 0.5, clientHeight := 600, scrollHeight := 2000 }

/-- An environment with a present scroll container. -/
def envEl : Env := { disabled := false, container := some elW, currentIndex := 1, articlesLen := 3 }

/-- Two touch-moves under `envA`: a small further drag, then a drag back
past the reference point (which demotes the gesture). -/
def evts6 : List MoveEvent := [{ env := envA, touches := [5] }, { env := envA, touches := [-20] }]

lemma dampen_of_nonpos (M r : ℝ) (h : r ≤ 0) : dampen M r = 0 := by
  simp [dampen, h]

lemma dampen_of_pos (M r : ℝ) (h : 0 < r) :
    dampen M r = M * (1 - Real.exp (-r / (M * 0.6))) := by
  rw [dampen, if_neg (not_le.mpr h)]

lemma dampen_nonneg (M r : ℝ) (hM : 0 < M) : 0 ≤ dampen M r := by
  rcases le_or_lt r 0 with h | h
  · rw [dampen_of_nonpos M r h]
  · rw [dampen_of_pos M r h]
    have hc : (0 : ℝ) < M * 0.6 := by nlinarith
    have hx : -r / (M * 0.6) ≤ 0 := by
      rw [neg_div]
      have := div_nonneg h.le hc.le
      linarith
    have hexp : Real.exp (-r / (M * 0.6)) ≤ 1 := Real.exp_le_one_iff.mpr hx
    nlinarith

lemma dampen_lt_max (M r : ℝ) (hM : 0 < M) : dampen M r < M := by
  rcases le_or_lt r 0 with h | h
  · rw [dampen_of_nonpos M r h]; exact hM
  · rw [dampen_of_pos M r h]
    have hexp : 0 < Real.exp (-r / (M * 0.6)) := Real.exp_pos _
    nlinarith

lemma dampen_le_dampen (M r₁ r₂ : ℝ) (hM : 0 < M) (h12 : r₁ ≤ r₂) :
    dampen M r₁ ≤ dampen M r₂ := by
  rcases le_or_lt r₁ 0 with h1 | h1
  · rw [dampen_of_nonpos M r₁ h1]
    exact dampen_nonneg M r₂ hM
  · have h2 : 0 < r₂ := lt_of_lt_of_le h1 h12
    rw [dampen_of_pos M r₁ h1, dampen_of_pos M r₂ h2]
    have hc : (0 : ℝ) < M * 0.6 := by nlinarith
    have hdiv : -r₂ / (M * 0.6) ≤ -r₁ / (M * 0.6) :=
      (div_le_div_iff_of_pos_right hc).mpr (by linarith)
    have hexp : Real.exp (-r₂ / (M * 0.6)) ≤ Real.exp (-r₁ / (M * 0.6)) :=
      Real.exp_le_exp.mpr hdiv
    nlinarith

/-- Claim C4: the damping function maps raw drag distance `r` to
`maxOverscroll * (1 - e^(-r / (0.6 * maxOverscroll)))` for `r > 0` and to 0
otherwise; for all `r ≥ 0` the damped offset is monotonically
non-decreasing in `r`, always lies in `[0, maxOverscroll)`, and equals 0
at `r = 0`. -/
theorem dampen_ok (M r₀ r₁ r₂ : ℝ) (hM : 0 < M) (hr0 : r₀ ≤ 0) (hr1 : 0 < r₁)
    (h12 : r₁ ≤ r₂) :
    dampen M r₀ = 0 ∧
    dampen M 0 = 0 ∧
    dampen M r₁ = M * (1 - Real.exp (-r₁ / (0.6 * M))) ∧
    dampen M r₁ ≤ dampen M r₂ ∧
    0 ≤ dampen M r₀ ∧ dampen M r₀ < M ∧
    0 ≤ dampen M r₁ ∧ dampen M r₁ < M := by
  refine ⟨dampen_of_nonpos M r₀ hr0, dampen_of_nonpos M 0 le_rfl, ?_,
    dampen_le_dampen M r₁ r₂ hM h12, dampen_nonneg M r₀ hM, dampen_lt_max M r₀ hM,
    dampen_nonneg M r₁ hM, dampen_lt_max M r₁ hM⟩
  rw [dampen_of_pos M r₁ hr1, mul_comm M (0.6 : ℝ)]

/-- Witness for `dampen_ok` at `M = 250`, `r₀ = 0`, `r₁ = 3`, `r₂ = 7`. -/
theorem dampen_ok_witness :
    (0 : ℝ) < 250 ∧ (0 : ℝ) ≤ 0 ∧ (0 : ℝ) < 3 ∧ (3 : ℝ) ≤ 7 ∧
    dampen 250 0 = 0 ∧ dampen 250 3 ≤ dampen 250 7 ∧ dampen 250 3 < 250 :=
  ⟨by norm_num, le_rfl, by norm_num, by norm_num,
    (dampen_ok 250 0 3 7 (by norm_num) le_rfl (by norm_num) (by norm_num)).1,
    (dampen_ok 250 0 3 7 (by norm_num) le_rfl (by norm_num) (by norm_num)).2.2.2.1,
    (dampen_ok 250 0 3 7 (by norm_num) le_rfl (by norm_num) (by norm_num)).2.2.2.2.2.2.2⟩

/-- Claim C2: a touch-end while `overscrolling` with a direction set takes
the commit path (`isCommitting` and `isAnimating` become true and a commit
timer carrying `currentIndex ∓ 1` is scheduled) when the damped offset is
at least `threshold`, and the spring-back path (offset snapped to 0, only
a spring timer scheduled, so no navigation) when it is strictly below; the
boundary condition is `>=`, so offset exactly at threshold commits. -/
theorem onTouchEnd_commit_boundary (cfg : Config) (env : Env) (s : ControllerState)
    (d : Direction) (hdis : env.disabled = false)
    (hst : s.state = OverscrollState.overscrolling) (hdir : s.direction = some d) :
    (s.overscrollOffset ≥ cfg.threshold →
      (onTouchEnd cfg env s).isCommitting = true ∧
      (onTouchEnd cfg env s).isAnimating = true ∧
      (onTouchEnd cfg env s).pendingTimers = s.pendingTimers ++
        [TimerTask.commit
          (if d = Direction.prev then env.currentIndex - 1 else env.currentIndex + 1)]) ∧
    (s.overscrollOffset < cfg.threshold →
      (onTouchEnd cfg env s).overscrollOffset = 0 ∧
      (onTouchEnd cfg env s).isAnimating = true ∧
      (onTouchEnd cfg env s).pendingTimers = s.pendingTimers ++ [TimerTask.spring]) := by
  have hguard : s.state = OverscrollState.overscrolling ∧ s.direction ≠ none := by
    refine ⟨hst, ?_⟩
    rw [hdir]
    simp
  constructor
  · intro hoff
    rw [onTouchEnd, if_neg (by simp [hdis]), if_pos hguard, if_pos hoff]
    refine ⟨rfl, rfl, ?_⟩
    rw [hdir]
    simp
  · intro hoff
    rw [onTouchEnd, if_neg (by simp [hdis]), if_pos hguard, if_neg (not_le.mpr hoff)]
    exact ⟨rfl, rfl, rfl⟩

/-- Witness for `onTouchEnd_commit_boundary`: a release with the damped
offset exactly at the default threshold 120 commits. -/
theorem onTouchEnd_commit_boundary_witness :
    envA.disabled = false ∧ sOverEq.state = OverscrollState.overscrolling ∧
    sOverEq.direction = some Direction.prev ∧
    sOverEq.overscrollOffset ≥ dfltCfg.threshold ∧
    (onTouchEnd dfltCfg envA sOverEq).isCommitting = true ∧
    (onTouchEnd dfltCfg envA sOverEq).isAnimating = true ∧
    (onTouchEnd dfltCfg envA sOverEq).pendingTimers = [TimerTask.commit 1] := by
  have h := (onTouchEnd_commit_boundary dfltCfg envA sOverEq Direction.prev rfl rfl rfl).1
    (by norm_num [sOverEq, dfltCfg])
  refine ⟨rfl, rfl, rfl, by norm_num [sOverEq, dfltCfg], h.1, h.2.1, ?_⟩
  rw [h.2.2]
  norm_num [sOverEq, envA]

/-- Claim C3: for a committed gesture (release while overscrolling with a
direction and offset at least threshold, with no other timer pending),
firing the settle timer invokes the navigation callback exactly once with
`currentIndex - 1` for `prev` and `currentIndex + 1` for `next`, and the
resulting controller state is fully reset: `idle`, offset 0, direction
none, both animation flags false; no further pending timer can invoke the
callback again. -/
theorem commit_timer_navigates_once (cfg : Config) (env : Env) (s : ControllerState)
    (d : Direction) (hdis : env.disabled = false)
    (hst : s.state = OverscrollState.overscrolling) (hdir : s.direction = some d)
    (hoff : s.overscrollOffset ≥ cfg.threshold) (hq : s.pendingTimers = []) :
    (fireTimer (onTouchEnd cfg env s)).2 =
      some (if d = Direction.prev then env.currentIndex - 1 else env.currentIndex + 1) ∧
    (fireTimer (onTouchEnd cfg env s)).1.state = OverscrollState.idle ∧
    (fireTimer (onTouchEnd cfg env s)).1.overscrollOffset = 0 ∧
    (fireTimer (onTouchEnd cfg env s)).1.direction = none ∧
    (fireTimer (onTouchEnd cfg env s)).1.isAnimating = false ∧
    (fireTimer (onTouchEnd cfg env s)).1.isCommitting = false ∧
    (fireTimer (onTouchEnd cfg env s)).1.pendingTimers = [] ∧
    (fireTimer (fireTimer (onTouchEnd cfg env s)).1).2 = none := by
  have hguard : s.state = OverscrollState.overscrolling ∧ s.direction ≠ none := by
    refine ⟨hst, ?_⟩
    rw [hdir]
    simp
  have hEnd : onTouchEnd cfg env s =
      { s with
          isCommitting := true,
          isAnimating := true,
          overscrollOffset := cfg.maxOverscroll + 50,
          pendingTimers :=
            [TimerTask.commit
              (if d = Direction.prev then env.currentIndex - 1
               else env.currentIndex + 1)] } := by
    rw [onTouchEnd, if_neg (by simp [hdis]), if_pos hguard, if_pos hoff, hq, hdir]
    simp
  rw [hEnd]
  simp [fireTimer, runTimerTask, resetState]

/-- Witness for `commit_timer_navigates_once`: releasing at offset 150 with
direction `prev` at index 2 navigates to index 1 and resets. -/
theorem commit_timer_navigates_once_witness :
    envA.disabled = false ∧ sOver.state = OverscrollState.overscrolling ∧
    sOver.direction = some Direction.prev ∧
    sOver.overscrollOffset ≥ dfltCfg.threshold ∧ sOver.pendingTimers = [] ∧
    (fireTimer (onTouchEnd dfltCfg envA sOver)).2 = some 1 ∧
    (fireTimer (onTouchEnd dfltCfg envA sOver)).1.state = OverscrollState.idle ∧
    (fireTimer (onTouchEnd dfltCfg envA sOver)).1.overscrollOffset = 0 := by
  have h := commit_timer_navigates_once dfltCfg envA sOver Direction.prev rfl rfl rfl
    (by norm_num [sOver, dfltCfg]) rfl
  refine ⟨rfl, rfl, rfl, by norm_num [sOver, dfltCfg], rfl, ?_, h.2.1, h.2.2.1⟩
  rw [h.1]
  norm_num [envA]

/-- Claim C10: the argument eventually passed to the navigation callback is
computed from `direction` and `currentIndex` at the moment of touch-end,
not when the settle timer fires: even after an external index change
(which force-resets the controller), the pending commit timer still
carries the index captured at release time. -/
theorem navigate_index_captured_at_release (cfg : Config) (env : Env)
    (s : ControllerState) (d : Direction) (i : ℤ) (hdis : env.disabled = false)
    (hst : s.state = OverscrollState.overscrolling) (hdir : s.direction = some d)
    (hoff : s.overscrollOffset ≥ cfg.threshold) (hq : s.pendingTimers = [])
    (hi : env.currentIndex = i) :
    (onIndexChange (onTouchEnd cfg env s)).state = OverscrollState.idle ∧
    (onIndexChange (onTouchEnd cfg env s)).overscrollOffset = 0 ∧
    (onIndexChange (onTouchEnd cfg env s)).direction = none ∧
    (fireTimer (onIndexChange (onTouchEnd cfg env s))).2 =
      some (if d = Direction.prev then i - 1 else i + 1) := by
  have hguard : s.state = OverscrollState.overscrolling ∧ s.direction ≠ none := by
    refine ⟨hst, ?_⟩
    rw [hdir]
    simp
  have hEnd : onTouchEnd cfg env s =
      { s with
          isCommitting := true,
          isAnimating := true,
          overscrollOffset := cfg.maxOverscroll + 50,
          pendingTimers :=
            [TimerTask.commit
              (if d = Direction.prev then i - 1 else i + 1)] } := by
    rw [onTouchEnd, if_neg (by simp [hdis]), if_pos hguard, if_pos hoff, hq, hdir, hi]
    simp
  rw [hEnd]
  simp [onIndexChange, fireTimer, runTimerTask, resetState]

/-- Witness for `navigate_index_captured_at_release`: the external reset
zeroes the controller, yet the timer still navigates to `2 - 1 = 1`. -/
theorem navigate_index_captured_at_release_witness :
    envA.disabled = false ∧ sOver.state = OverscrollState.overscrolling ∧
    sOver.direction = some Direction.prev ∧
    sOver.overscrollOffset ≥ dfltCfg.threshold ∧ sOver.pendingTimers = [] ∧
    envA.currentIndex = 2 ∧
    (onIndexChange (onTouchEnd dfltCfg envA sOver)).overscrollOffset = 0 ∧
    (fireTimer (onIndexChange (onTouchEnd dfltCfg envA sOver))).2 = some 1 := by
  have h := navigate_index_captured_at_release dfltCfg envA sOver Direction.prev 2 rfl rfl rfl
    (by norm_num [sOver, dfltCfg]) rfl rfl
  refine ⟨rfl, rfl, rfl, by norm_num [sOver, dfltCfg], rfl, rfl, h.2.1, ?_⟩
  rw [h.2.2.2]
  norm_num

/-- Claim C1 fails on the code: `onTouchEnd` schedules the commit timer but
never stores its handle, and neither `onTouchStart` nor `resetState`
cancels it, so a new touch-start before the settle delay elapses only
clears the flags — when the superseded timer then fires, it still invokes
the navigation callback (here with index 1) and resets whatever state the
new gesture has built up. -/
theorem stale_commit_timer_fires :
    (onTouchEnd dfltCfg envA sOver).pendingTimers = [TimerTask.commit 1] ∧
    (onTouchEnd dfltCfg envA sOver).isCommitting = true ∧
    (onTouchStart envA [500] (onTouchEnd dfltCfg envA sOver)).1.isCommitting = false ∧
    (onTouchStart envA [500] (onTouchEnd dfltCfg envA sOver)).1.pendingTimers =
      [TimerTask.commit 1] ∧
    (fireTimer (onTouchStart envA [500] (onTouchEnd dfltCfg envA sOver)).1).2 = some 1 := by
  have hEnd : onTouchEnd dfltCfg envA sOver =
      { sOver with
          isCommitting := true,
          isAnimating := true,
          overscrollOffset := 300,
          pendingTimers := [TimerTask.commit 1] } := by
    rw [onTouchEnd]
    norm_num [envA, sOver, dfltCfg]
    simp
  rw [hEnd]
  norm_num [onTouchStart, fireTimer, runTimerTask, resetState, isAtTop, isAtBottom, envA, sOver]

/-- Counterexample to claim C7: the dead-zone test is `Math.abs(totalDeltaY) < 10`,
so a move whose absolute displacement is exactly 10 pixels — which the
claim says leaves the controller passive — already classifies the gesture:
from `idle` at the top boundary with a previous article it enters
`overscrolling` with direction `prev`. -/
theorem idle_dead_zone_boundary_cex :
    sIdle.state = OverscrollState.idle ∧ |(10 : ℝ) - sIdle.startY| ≤ 10 ∧
    (onTouchMove dfltCfg envA [10] sIdle).1.state = OverscrollState.overscrolling ∧
    (onTouchMove dfltCfg envA [10] sIdle).1.direction = some Direction.prev := by
  refine ⟨rfl, by norm_num [sIdle], ?_⟩
  norm_num [onTouchMove, sIdle, envA, hasPrev]

/-- Claim C7 as amended: a touch-move in state `idle` leaves the
controller completely passive exactly while the absolute cumulative
displacement is strictly below 10 pixels; at 10 pixels and above the
gesture is classified. -/
theorem idle_dead_zone (cfg : Config) (env : Env) (y : ℝ) (rest : List ℝ)
    (s : ControllerState) (hdis : env.disabled = false)
    (hst : s.state = OverscrollState.idle) (hy : |y - s.startY| < 10) :
    onTouchMove cfg env (y :: rest) s = (s, none) := by
  simp [onTouchMove, hdis, hst, hy]

/-- Witness for `idle_dead_zone`: a 5-pixel move from `startY = 0` is a
no-op. -/
theorem idle_dead_zone_witness :
    envA.disabled = false ∧ sIdle.state = OverscrollState.idle ∧
    |(5 : ℝ) - sIdle.startY| < 10 ∧
    onTouchMove dfltCfg envA [5] sIdle = (sIdle, none) :=
  ⟨rfl, rfl, by norm_num [sIdle],
    idle_dead_zone dfltCfg envA 5 [] sIdle rfl rfl (by norm_num [sIdle])⟩

/-- Counterexample to claim C8: a touch-move with an empty touch list is
not a clean no-op — it raises a `TypeError` from the unguarded
`e.touches[0].clientY` access; and a touch-start with an empty touch list
while an animation is in flight mutates state (the animation cancel runs
before the failing access) and then raises the same `TypeError`. -/
theorem empty_touches_cex :
    (onTouchMove dfltCfg envA [] sIdle).2 = some JsError.typeError ∧
    sAnim.isAnimating = true ∧
    (onTouchStart envA [] sAnim).1.isAnimating = false ∧
    (onTouchStart envA [] sAnim).2 = some JsError.typeError := by
  norm_num [onTouchMove, onTouchStart, resetState, envA, sAnim]

/-- Claim C8 as amended: when not disabled, a touch-start or touch-move
with an empty touch list raises a `TypeError` instead of completing;
touch-move changes no state before the throw, while touch-start first
cancels any in-flight animation (resetting the refs) and then throws. -/
theorem empty_touches_throw (cfg : Config) (env : Env) (s : ControllerState)
    (hdis : env.disabled = false) :
    onTouchMove cfg env [] s = (s, some JsError.typeError) ∧
    onTouchStart env [] s =
      ((if s.isAnimating = true ∨ s.isCommitting = true then resetState s else s),
        some JsError.typeError) := by
  constructor
  · simp [onTouchMove, hdis]
  · simp [onTouchStart, hdis]

/-- Witness for `empty_touches_throw` on concrete states. -/
theorem empty_touches_throw_witness :
    envA.disabled = false ∧
    onTouchMove dfltCfg envA [] sIdle = (sIdle, some JsError.typeError) ∧
    (onTouchStart envA [] sAnim).2 = some JsError.typeError := by
  refine ⟨rfl, (empty_touches_throw dfltCfg envA sIdle rfl).1, ?_⟩
  rw [(empty_touches_throw dfltCfg envA sAnim rfl).2]

/-- Claim C9: with no container reference both boundary queries return
`true` (and, being total functions, cannot throw); with a container
present, `isAtTop` holds exactly when the scroll offset is within 1 pixel
of the top extent and `isAtBottom` exactly when the remaining scrollable
distance (total scrollable height minus offset plus visible height) is
within 1 pixel. -/
theorem boundary_queries (envN envS : Env) (el : ScrollMetrics)
    (hN : envN.container = none) (hS : envS.container = some el) :
    isAtTop envN = true ∧ isAtBottom envN = true ∧
    (isAtTop envS = true ↔ el.scrollTop ≤ 1) ∧
    (isAtBottom envS = true ↔ el.scrollHeight - (el.scrollTop + el.clientHeight) ≤ 1) := by
  refine ⟨by simp [isAtTop, hN], by simp [isAtBottom, hN], by simp [isAtTop, hS], ?_⟩
  simp only [isAtBottom, hS, decide_eq_true_eq, ge_iff_le]
  constructor
  · intro h
    linarith
  · intro h
    linarith

/-- Witness for `boundary_queries`: absent container answers `true` for
both queries; a container scrolled half a pixel from the top is at the
top. -/
theorem boundary_queries_witness :
    envA.container = none ∧ envEl.container = some elW ∧
    isAtTop envA = true ∧ isAtBottom envA = true ∧ isAtTop envEl = true := by
  have h := boundary_queries envA envEl elW rfl rfl
  exact ⟨rfl, rfl, h.1, h.2.1, h.2.2.1.mpr (by norm_num [elW])⟩

lemma onTouchMove_master (cfg : Config) (env : Env) (touches : List ℝ)
    (s : ControllerState) :
    ((onTouchMove cfg env touches s).1.state = s.state ∧
     (onTouchMove cfg env touches s).1.direction = s.direction ∧
     (onTouchMove cfg env touches s).1.directionLocked = s.directionLocked) ∨
    (s.state = OverscrollState.idle ∧
     (onTouchMove cfg env touches s).1.state = OverscrollState.scrolling ∧
     (onTouchMove cfg env touches s).1.direction = s.direction ∧
     (onTouchMove cfg env touches s).1.directionLocked = s.directionLocked) ∨
    ((onTouchMove cfg env touches s).1.state = OverscrollState.overscrolling ∧
     (onTouchMove cfg env touches s).1.direction = some Direction.prev ∧
     hasPrev env ∧
     (onTouchMove cfg env touches s).1.directionLocked = true ∧
     (s.state = OverscrollState.idle ∨
       (s.state = OverscrollState.scrolling ∧ s.directionLocked = false))) ∨
    ((onTouchMove cfg env touches s).1.state = OverscrollState.overscrolling ∧
     (onTouchMove cfg env touches s).1.direction = some Direction.next ∧
     hasNext env ∧
     (onTouchMove cfg env touches s).1.directionLocked = true ∧
     (s.state = OverscrollState.idle ∨
       (s.state = OverscrollState.scrolling ∧ s.directionLocked = false))) ∨
    (s.state = OverscrollState.overscrolling ∧
     (onTouchMove cfg env touches s).1.state = OverscrollState.scrolling ∧
     (onTouchMove cfg env touches s).1.direction = none ∧
     (onTouchMove cfg env touches s).1.directionLocked = s.directionLocked) := by
  rcases touches with _ | ⟨y, rest⟩
  · left
    by_cases hdis : env.disabled = true <;> simp [onTouchMove, hdis]
  · by_cases hdis : env.disabled = true
    · left
      simp [onTouchMove, hdis]
    · simp only [onTouchMove, hdis]
      split_ifs <;> simp_all

/-- Claim C5: a touch-move never makes the controller enter
`overscrolling` with direction `prev` when `hasPrev` is false, nor with
direction `next` when `hasNext` is false; at a boundary with no adjacent
item in either direction, a move leaves the controller in `idle` or
`scrolling`. -/
theorem no_overscroll_without_adjacent (cfg : Config) (env : Env) (touches : List ℝ)
    (s : ControllerState) :
    (¬ hasPrev env →
      (onTouchMove cfg env touches s).1.state = OverscrollState.overscrolling ∧
        (onTouchMove cfg env touches s).1.direction = some Direction.prev →
      s.state = OverscrollState.overscrolling ∧ s.direction = some Direction.prev) ∧
    (¬ hasNext env →
      (onTouchMove cfg env touches s).1.state = OverscrollState.overscrolling ∧
        (onTouchMove cfg env touches s).1.direction = some Direction.next →
      s.state = OverscrollState.overscrolling ∧ s.direction = some Direction.next) ∧
    (¬ hasPrev env → ¬ hasNext env →
      (s.state = OverscrollState.idle ∨ s.state = OverscrollState.scrolling) →
      ((onTouchMove cfg env touches s).1.state = OverscrollState.idle ∨
       (onTouchMove cfg env touches s).1.state = OverscrollState.scrolling)) := by
  have H := onTouchMove_master cfg env touches s
  refine ⟨?_, ?_, ?_⟩
  · rintro hP ⟨h1, h2⟩
    rcases H with ⟨a, b, _⟩ | ⟨_, b, _, _⟩ | ⟨_, _, c, _, _⟩ | ⟨_, b, _, _, _⟩ | ⟨_, b, _, _⟩
    · rw [a] at h1
      rw [b] at h2
      exact ⟨h1, h2⟩
    · rw [b] at h1
      simp at h1
    · exact absurd c hP
    · rw [b] at h2
      simp at h2
    · rw [b] at h1
      simp at h1
  · rintro hN ⟨h1, h2⟩
    rcases H with ⟨a, b, _⟩ | ⟨_, b, _, _⟩ | ⟨_, b, _, _, _⟩ | ⟨_, _, c, _, _⟩ | ⟨_, b, _, _⟩
    · rw [a] at h1
      rw [b] at h2
      exact ⟨h1, h2⟩
    · rw [b] at h1
      simp at h1
    · rw [b] at h2
      simp at h2
    · exact absurd c hN
    · rw [b] at h1
      simp at h1
  · intro hP hN hs
    rcases H with ⟨a, _, _⟩ | ⟨_, b, _, _⟩ | ⟨_, _, c, _, _⟩ | ⟨_, _, c, _, _⟩ | ⟨_, b, _, _⟩
    · rw [a]
      exact hs
    · right
      exact b
    · exact absurd c hP
    · exact absurd c hN
    · right
      exact b

/-- Witness for `no_overscroll_without_adjacent`: at index 0 of a
single-article list, a 50-pixel downward drag at the top boundary does not
enter `overscrolling`. -/
theorem no_overscroll_without_adjacent_witness :
    ¬ hasPrev env0 ∧ ¬ hasNext env0 ∧
    (sIdle.state = OverscrollState.idle ∨ sIdle.state = OverscrollState.scrolling) ∧
    ((onTouchMove dfltCfg env0 [50] sIdle).1.state = OverscrollState.idle ∨
     (onTouchMove dfltCfg env0 [50] sIdle).1.state = OverscrollState.scrolling) := by
  refine ⟨by norm_num [hasPrev, env0], by norm_num [hasNext, env0], Or.inl rfl, ?_⟩
  exact (no_overscroll_without_adjacent dfltCfg env0 [50] sIdle).2.2
    (by norm_num [hasPrev, env0]) (by norm_num [hasNext, env0]) (Or.inl rfl)

lemma onTouchMove_scrolling_locked (cfg : Config) (env : Env) (touches : List ℝ)
    (s : ControllerState) (hst : s.state = OverscrollState.scrolling)
    (hL : s.directionLocked = true) :
    (onTouchMove cfg env touches s).1 = s := by
  rcases touches with _ | ⟨y, rest⟩
  · by_cases hdis : env.disabled = true <;> simp [onTouchMove, hdis]
  · by_cases hdis : env.disabled = true
    · simp [onTouchMove, hdis]
    · simp [onTouchMove, hdis, hst, hL]

lemma applyMoves_nil (cfg : Config) (s : ControllerState) : applyMoves cfg [] s = s := rfl

lemma applyMoves_cons (cfg : Config) (e : MoveEvent) (evts : List MoveEvent)
    (s : ControllerState) :
    applyMoves cfg (e :: evts) s =
      applyMoves cfg evts (onTouchMove cfg e.env e.touches s).1 := rfl

lemma applyMoves_scrolling_locked (cfg : Config) (evts : List MoveEvent)
    (s : ControllerState) (hst : s.state = OverscrollState.scrolling)
    (hL : s.directionLocked = true) :
    applyMoves cfg evts s = s := by
  induction evts with
  | nil => rfl
  | cons e evts ih =>
    rw [applyMoves_cons, onTouchMove_scrolling_locked cfg e.env e.touches s hst hL, ih]

lemma moves_session_inv (cfg : Config) (d : Direction) :
    ∀ (evts : List MoveEvent) (s : ControllerState),
      s.directionLocked = true → s.state ≠ OverscrollState.idle →
      (s.direction = some d ∨ s.direction = none) →
      (s.state = OverscrollState.overscrolling → s.direction = some d) →
      (applyMoves cfg evts s).directionLocked = true ∧
      (applyMoves cfg evts s).state ≠ OverscrollState.idle ∧
      ((applyMoves cfg evts s).direction = some d ∨ (applyMoves cfg evts s).direction = none) ∧
      ((applyMoves cfg evts s).state = OverscrollState.overscrolling →
        (applyMoves cfg evts s).direction = some d) := by
  intro evts
  induction evts with
  | nil => intro s hL hni hdir hov; exact ⟨hL, hni, hdir, hov⟩
  | cons e evts ih =>
    intro s hL hni hdir hov
    rw [applyMoves_cons]
    have H := onTouchMove_master cfg e.env e.touches s
    rcases H with ⟨a, b, c⟩ | ⟨a, _, _, _⟩ | ⟨_, _, _, _, f⟩ | ⟨_, _, _, _, f⟩ | ⟨_, b, c, f⟩
    · refine ih _ (by rw [c]; exact hL) (by rw [a]; exact hni) ?_ ?_
      · rw [b]; exact hdir
      · rw [a, b]; exact hov
    · exact absurd a hni
    · rcases f with f | ⟨_, f⟩
      · exact absurd f hni
      · rw [hL] at f
        cases f
    · rcases f with f | ⟨_, f⟩
      · exact absurd f hni
      · rw [hL] at f
        cases f
    · refine ih _ (by rw [f]; exact hL) (by rw [b]; simp) ?_ ?_
      · rw [c]; exact Or.inr rfl
      · rw [b]; simp

/-- Claim C6: within one touch session, once `direction` is set and locked
the remaining touch-moves can never flip it to the opposite value — it
stays the locked value or is cleared by a demotion — the lock itself is
never released by a move, the session never returns to `idle` by moves
alone, whenever the state is `overscrolling` the direction is still the
locked one, and after a demotion to `scrolling` the session is inert: no
further move re-enters `overscrolling` (the lock blocks the upgrade
path). -/
theorem direction_locked_for_session (cfg : Config) (evts : List MoveEvent)
    (s : ControllerState) (d : Direction)
    (hL : s.directionLocked = true) (hni : s.state ≠ OverscrollState.idle)
    (hdir : s.direction = some d ∨ s.direction = none)
    (hov : s.state = OverscrollState.overscrolling → s.direction = some d) :
    ((applyMoves cfg evts s).direction = some d ∨
      (applyMoves cfg evts s).direction = none) ∧
    (applyMoves cfg evts s).directionLocked = true ∧
    (applyMoves cfg evts s).state ≠ OverscrollState.idle ∧
    ((applyMoves cfg evts s).state = OverscrollState.overscrolling →
      (applyMoves cfg evts s).direction = some d) ∧
    (s.state = OverscrollState.scrolling → applyMoves cfg evts s = s) := by
  have H := moves_session_inv cfg d evts s hL hni hdir hov
  exact ⟨H.2.2.1, H.1, H.2.1, H.2.2.2,
    fun hst => applyMoves_scrolling_locked cfg evts s hst hL⟩

/-- Witness for `direction_locked_for_session`: a gesture locked on `prev`
followed by a further drag and a reversing drag (which demotes it) keeps
the lock and never carries direction `next`. -/
theorem direction_locked_for_session_witness :
    sOver.directionLocked = true ∧ sOver.state ≠ OverscrollState.idle ∧
    sOver.direction = some Direction.prev ∧
    ((applyMoves dfltCfg evts6 sOver).direction = some Direction.prev ∨
      (applyMoves dfltCfg evts6 sOver).direction = none) ∧
    (applyMoves dfltCfg evts6 sOver).directionLocked = true := by
  have H := direction_locked_for_session dfltCfg evts6 sOver Direction.prev rfl
    (by simp [sOver]) (Or.inl rfl) (fun _ => rfl)
  exact ⟨rfl, by simp [sOver], rfl, H.1, H.2.1⟩
